import Mathlib

/-!
Shallow embedding of the `regigigas` registry crate: the `NamespacedID`
identifier type with its global string interner (`src/nsid.rs`,
`src/err.rs`) and the arena-backed `Registry<T>` (`src/lib.rs`),
together with proofs of the specified properties.

Rust strings are modelled as their character sequences (`List Char`);
byte offsets, where the source uses them (`str::char_indices`), are
recovered through `Char.utf8Size`.
-/

namespace Regigigas

/-- A Rust `str`, as its sequence of characters. -/
abbrev RStr := List Char

/-- The `InvalidNamespace` error enum from `err.rs`. -/
inductive InvalidNamespace where
  | Empty
  | BadChar (idx : Nat) (c : Char)
deriving DecidableEq

/-- The `InvalidPath` error enum from `err.rs`. -/
inductive InvalidPath where
  | Empty
  | BadChar (idx : Nat) (c : Char)
deriving DecidableEq

/-- The `NSIDParseError` enum from `err.rs`.  `InternerError` is produced
in the source only when the interner lock is poisoned or busy, which has
no counterpart in this sequential model, so no definition below ever
returns it. -/
inductive NSIDParseError where
  | InvalidNamespace (e : InvalidNamespace)
  | InvalidPath (e : InvalidPath)
  | NoSeparator
  | InternerError (msg : RStr)
deriving DecidableEq

/-- The global `lasso::Rodeo` interner, modelled as the list of strings
interned so far; a `Spur` key is an index into this list. -/
abbrev Interner := List RStr

/-- Index of the first occurrence of `s` in the interner, if present
(the key `lasso` would hand back for an already-interned string). -/
def Interner.find_spur (s : RStr) : Interner → Option Nat
  | [] => none
  | t :: ts => if t = s then some 0 else (Interner.find_spur s ts).map (· + 1)

/-- `Rodeo::get_or_intern`: return the existing key for `s`, or append
`s` and return its fresh key. -/
def Interner.get_or_intern (st : Interner) (s : RStr) : Interner × Nat :=
  match Interner.find_spur s st with
  | some i => (st, i)
  | none => (st ++ [s], st.length)

/-- `Rodeo::resolve`: the string behind a key.  The source unwraps; an
unknown key (impossible through the public API) resolves to `[]` here. -/
def Interner.resolve (st : Interner) (i : Nat) : RStr := (st.get? i).getD []

/-- `NamespacedID` from `nsid.rs`: a pair of interner keys. -/
structure NamespacedID where
  ns : Nat
  path : Nat
deriving DecidableEq

/-- `NamespacedID::is_valid_namespace_char`: lowercase ascii letters,
digits, `-`, `_`. -/
def NamespacedID.is_valid_namespace_char (chr : Char) : Bool :=
  ('a' ≤ chr && chr ≤ 'z') || ('0' ≤ chr && chr ≤ '9') || chr == '-' || chr == '_'

/-- `NamespacedID::is_valid_path_char`: lowercase ascii letters, digits,
`.`, `/`, `-`, `_`. -/
def NamespacedID.is_valid_path_char (chr : Char) : Bool :=
  ('a' ≤ chr && chr ≤ 'z') || ('0' ≤ chr && chr ≤ '9')
    || chr == '.' || chr == '/' || chr == '-' || chr == '_'

/-- Rust `str::char_indices` starting from byte offset `i`: each
character paired with its byte offset. -/
def charIndicesFrom (i : Nat) : RStr → List (Nat × Char)
  | [] => []
  | c :: cs => (i, c) :: charIndicesFrom (i + c.utf8Size) cs

/-- `NamespacedID::check_namespace`: empty strings and the first
character failing `is_valid_namespace_char` (reported with its
`char_indices` byte offset) are rejected. -/
def NamespacedID.check_namespace (s : RStr) : Except InvalidNamespace Unit :=
  if s.isEmpty then .error .Empty
  else
    match (charIndicesFrom 0 s).find?
        (fun p => !NamespacedID.is_valid_namespace_char p.2) with
    | some (idx, c) => .error (.BadChar idx c)
    | none => .ok ()

/-- `NamespacedID::check_path`: same shape as `check_namespace` with the
path character rule. -/
def NamespacedID.check_path (s : RStr) : Except InvalidPath Unit :=
  if s.isEmpty then .error .Empty
  else
    match (charIndicesFrom 0 s).find?
        (fun p => !NamespacedID.is_valid_path_char p.2) with
    | some (idx, c) => .error (.BadChar idx c)
    | none => .ok ()

/-- `NamespacedID::new_from_parts` (nsid.rs lines 70–91).  Mirrors the
source exactly: line 82 runs `check_path(namespace)` — the `namespace`
argument again, so the `path` argument is never validated. -/
def NamespacedID.new_from_parts (st : Interner) (nsArg p : RStr) :
    Except NSIDParseError (Interner × NamespacedID) :=
  match NamespacedID.check_namespace nsArg with
  | .error e => .error (.InvalidNamespace e)
  | .ok _ =>
    match NamespacedID.check_path nsArg with
    | .error e => .error (.InvalidPath e)
    | .ok _ =>
      let r1 := Interner.get_or_intern st nsArg
      let r2 := Interner.get_or_intern r1.1 p
      .ok (r2.1, ⟨r1.2, r2.2⟩)

/-- `str::split_once(':')`: split at the first occurrence of `sep`;
`none` when `sep` does not occur. -/
def split_once (sep : Char) : RStr → Option (RStr × RStr)
  | [] => none
  | c :: cs =>
    if c = sep then some ([], cs)
    else (split_once sep cs).map (fun p => (c :: p.1, p.2))

/-- `<NamespacedID as FromStr>::from_str` (nsid.rs lines 126–155): split
on the first `:`, check the namespace, check the path shifting a
`BadChar` index by the namespace character count plus one, then intern
both segments. -/
def NamespacedID.from_str (st : Interner) (s : RStr) :
    Except NSIDParseError (Interner × NamespacedID) :=
  match split_once ':' s with
  | none => .error .NoSeparator
  | some (nsSeg, maybe_path) =>
    match NamespacedID.check_namespace nsSeg with
    | .error e => .error (.InvalidNamespace e)
    | .ok _ =>
      let ns_char_len := nsSeg.length
      match NamespacedID.check_path maybe_path with
      | .error (InvalidPath.BadChar idx c) =>
          .error (.InvalidPath (.BadChar (ns_char_len + 1 + idx) c))
      | .error e => .error (.InvalidPath e)
      | .ok _ =>
        let r1 := Interner.get_or_intern st nsSeg
        let r2 := Interner.get_or_intern r1.1 maybe_path
        .ok (r2.1, ⟨r1.2, r2.2⟩)

/-- `<NamespacedID as Display>::fmt`: resolve both keys and write
`"{namespace}:{path}"`. -/
def NamespacedID.display (st : Interner) (id : NamespacedID) : RStr :=
  Interner.resolve st id.ns ++ ':' :: Interner.resolve st id.path

/-- Character index (not byte index) and identity of the first character
of `s` failing `valid`; used to state the indexing claims. -/
def firstBad (valid : Char → Bool) : RStr → Option (Nat × Char)
  | [] => none
  | c :: cs =>
    if valid c then (firstBad valid cs).map (fun p => (p.1 + 1, p.2))
    else some (0, c)

instance {ε α : Type} [DecidableEq ε] [DecidableEq α] : DecidableEq (Except ε α) := fun
  | .error a, .error b =>
    if h : a = b then .isTrue (by rw [h])
    else .isFalse (by intro hc; cases hc; exact h rfl)
  | .error _, .ok _ => .isFalse (by intro hc; cases hc)
  | .ok _, .error _ => .isFalse (by intro hc; cases hc)
  | .ok a, .ok b =>
    if h : a = b then .isTrue (by rw [h])
    else .isFalse (by intro hc; cases hc; exact h rfl)

/-- `ErrAlreadyRegistered` from `err.rs`. -/
inductive ErrAlreadyRegistered where
  | mk
deriving DecidableEq

/-- `ErrCategoryAlreadyRegistered` from `err.rs`. -/
inductive ErrCategoryAlreadyRegistered where
  | mk
deriving DecidableEq

/-- `RegistryHandle<T>` from `lib.rs`: an arena id plus the cached
identifier.  Lean's structural `=` is not the source's `PartialEq`; the
source's id-only equality is `RegistryHandle.beq` below. -/
structure RegistryHandle where
  id : Nat
  nsid : NamespacedID
deriving DecidableEq

/-- `<RegistryHandle as PartialEq>::eq` (lib.rs lines 233–237): handles
compare by arena id only; the cached identifier is ignored. -/
def RegistryHandle.beq (a b : RegistryHandle) : Bool := a.id == b.id

/-- `CategoryHandle<T>` from `lib.rs`: an id into the category arena
plus the cached identifier. -/
structure CategoryHandle where
  id : Nat
  nsid : NamespacedID
deriving DecidableEq

/-- `AHashMap::contains_key` on the identifier index. -/
def mapContainsKey (m : List (NamespacedID × Nat)) (k : NamespacedID) : Bool :=
  m.any (fun p => decide (p.1 = k))

/-- `AHashMap::get` on the identifier index. -/
def mapGet (m : List (NamespacedID × Nat)) (k : NamespacedID) : Option Nat :=
  (m.find? (fun p => decide (p.1 = k))).map (fun p => p.2)

/-- `AHashMap::insert`: the new binding shadows any old one. -/
def mapInsert (m : List (NamespacedID × Nat)) (k : NamespacedID) (v : Nat) :
    List (NamespacedID × Nat) :=
  (k, v) :: m.filter (fun p => decide (¬ p.1 = k))

/-- `Registry<T>` from `lib.rs`: the value arena (`id_arena` allocates
consecutive indices, so an arena is the list of its entries), the
identifier index, the category arena of member-id sets, and the category
identifier index. -/
structure Registry (T : Type) where
  arena : List (T × NamespacedID)
  nsid_map : List (NamespacedID × Nat)
  category_arena : List (Finset Nat × NamespacedID)
  category_nsid_map : List (NamespacedID × Nat)
deriving DecidableEq

namespace Registry

variable {T : Type}

/-- `Registry::new`. -/
def new (T : Type) : Registry T := ⟨[], [], [], []⟩

/-- `Registry::register` (lib.rs lines 37–50).  Rust mutates through
`&mut self`; here the updated registry is returned next to the result. -/
def register (r : Registry T) (entry : T) (nsid : NamespacedID) :
    Registry T × Except ErrAlreadyRegistered RegistryHandle :=
  if mapContainsKey r.nsid_map nsid then (r, .error .mk)
  else
    let handle : RegistryHandle := ⟨r.arena.length, nsid⟩
    ({ r with arena := r.arena ++ [(entry, nsid)],
              nsid_map := mapInsert r.nsid_map nsid handle.id },
     .ok handle)

/-- `Registry::register_category` (lib.rs lines 55–69): collect the
handles' arena ids into a set (duplicates collapse), allocate a category
arena entry, record the index. -/
def register_category (r : Registry T) (nsid : NamespacedID)
    (entries : List RegistryHandle) :
    Registry T × Except ErrCategoryAlreadyRegistered CategoryHandle :=
  if mapContainsKey r.category_nsid_map nsid then (r, .error .mk)
  else
    let s : Finset Nat := (entries.map (fun h => h.id)).toFinset
    let handle : CategoryHandle := ⟨r.category_arena.length, nsid⟩
    ({ r with category_arena := r.category_arena ++ [(s, nsid)],
              category_nsid_map := mapInsert r.category_nsid_map nsid handle.id },
     .ok handle)

/-- `Registry::insert_into_category` (lib.rs lines 82–85).  The source
does `get_mut(category.id).unwrap()` and so panics on a handle this
registry never issued; that unreachable panic is modelled as leaving the
registry unchanged. -/
def insert_into_category (r : Registry T) (category : CategoryHandle)
    (entry : RegistryHandle) : Registry T :=
  match r.category_arena.get? category.id with
  | none => r
  | some (s, n) =>
    { r with category_arena := r.category_arena.set category.id (insert entry.id s, n) }

/-- `Registry::insert_many_into_category` (lib.rs lines 88–95):
`set.extend` over the entries' ids. -/
def insert_many_into_category (r : Registry T) (category : CategoryHandle)
    (entries : List RegistryHandle) : Registry T :=
  match r.category_arena.get? category.id with
  | none => r
  | some (s, n) =>
    let upd := r.category_arena.set category.id
      (entries.foldl (fun acc e => insert e.id acc) s, n)
    { r with category_arena := upd }

/-- `Registry::remove_from_category` (lib.rs lines 98–105):
`HashSet::remove` deletes the id and reports whether it was present. -/
def remove_from_category (r : Registry T) (category : CategoryHandle)
    (entry : RegistryHandle) : Registry T × Bool :=
  match r.category_arena.get? category.id with
  | none => (r, false)
  | some (s, n) =>
    ({ r with category_arena := r.category_arena.set category.id (s.erase entry.id, n) },
     decide (entry.id ∈ s))

/-- `Registry::lookup` (lib.rs lines 111–113).  The source unwraps,
asserting any handle this registry issued resolves; the model returns an
`Option` and the totality claim proves the `some` case. -/
def lookup (r : Registry T) (handle : RegistryHandle) : Option T :=
  (r.arena.get? handle.id).map (fun p => p.1)

/-- `Registry::get_nsid` (lib.rs lines 119–121). -/
def get_nsid (r : Registry T) (handle : RegistryHandle) : Option NamespacedID :=
  (r.arena.get? handle.id).map (fun p => p.2)

/-- `Registry::lookup_by_nsid` (lib.rs lines 124–127). -/
def lookup_by_nsid (r : Registry T) (nsid : NamespacedID) : Option T :=
  match mapGet r.nsid_map nsid with
  | none => none
  | some id => (r.arena.get? id).map (fun p => p.1)

/-- `Registry::validate_nsid` (lib.rs lines 130–133). -/
def validate_nsid (r : Registry T) (nsid : NamespacedID) : Option RegistryHandle :=
  (mapGet r.nsid_map nsid).map (fun id => ⟨id, nsid⟩)

/-- `Registry::is_in_category` (lib.rs lines 176–179). -/
def is_in_category (r : Registry T) (entry : RegistryHandle)
    (category : CategoryHandle) : Bool :=
  match r.category_arena.get? category.id with
  | none => false
  | some (s, _) => decide (entry.id ∈ s)

end Registry

/-- One mutating registry operation, for stating properties that hold
after any finite sequence of further operations. -/
inductive RegOp (T : Type) where
  | register (v : T) (nsid : NamespacedID)
  | register_category (nsid : NamespacedID) (entries : List RegistryHandle)
  | insert_into_category (c : CategoryHandle) (e : RegistryHandle)
  | insert_many_into_category (c : CategoryHandle) (es : List RegistryHandle)
  | remove_from_category (c : CategoryHandle) (e : RegistryHandle)

/-- Run one operation for its state effect. -/
def applyOp {T : Type} (r : Registry T) : RegOp T → Registry T
  | .register v nsid => (r.register v nsid).1
  | .register_category nsid es => (r.register_category nsid es).1
  | .insert_into_category c e => r.insert_into_category c e
  | .insert_many_into_category c es => r.insert_many_into_category c es
  | .remove_from_category c e => (r.remove_from_category c e).1

/-- Run a finite sequence of operations. -/
def applyOps {T : Type} (r : Registry T) (ops : List (RegOp T)) : Registry T :=
  ops.foldl applyOp r

/-! Character-level facts: every character either validator accepts is
ascii, so its UTF-8 byte width is 1. -/

lemma char_le_val_toNat {c d : Char} (h : c ≤ d) : c.val.toNat ≤ d.val.toNat := by
  exact BitVec.le_def.mp (UInt32.le_def.mp (Char.le_def.mp h))

lemma valid_path_char_utf8Size {c : Char}
    (h : NamespacedID.is_valid_path_char c = true) : c.utf8Size = 1 := by
  unfold NamespacedID.is_valid_path_char at h
  simp only [Bool.or_eq_true, Bool.and_eq_true, beq_iff_eq, decide_eq_true_eq] at h
  have hv : c.val.toNat ≤ 127 := by
    rcases h with ((((⟨_, h2⟩ | ⟨_, h2⟩) | h2) | h2) | h2) | h2
    · exact le_trans (char_le_val_toNat h2) (by decide)
    · exact le_trans (char_le_val_toNat h2) (by decide)
    · subst h2; decide
    · subst h2; decide
    · subst h2; decide
    · subst h2; decide
  unfold Char.utf8Size
  dsimp only
  rw [if_pos]
  exact hv

lemma valid_namespace_char_valid_path_char {c : Char}
    (h : NamespacedID.is_valid_namespace_char c = true) :
    NamespacedID.is_valid_path_char c = true := by
  unfold NamespacedID.is_valid_namespace_char at h
  unfold NamespacedID.is_valid_path_char
  simp only [Bool.or_eq_true, Bool.and_eq_true, beq_iff_eq, decide_eq_true_eq] at h ⊢
  tauto

lemma valid_namespace_char_utf8Size {c : Char}
    (h : NamespacedID.is_valid_namespace_char c = true) : c.utf8Size = 1 :=
  valid_path_char_utf8Size (valid_namespace_char_valid_path_char h)

lemma colon_not_valid_namespace_char :
    NamespacedID.is_valid_namespace_char ':' = false := by decide

/-! Relating the source's byte-offset scan to character indices: as long
as accepted characters are one byte wide, the byte offset reported for
the first rejected character is its character index. -/

lemma mem_charIndicesFrom {p : Nat × Char} :
    ∀ (l : RStr) (i : Nat), p ∈ charIndicesFrom i l → p.2 ∈ l := by
  intro l
  induction l with
  | nil => intro i h; simp [charIndicesFrom] at h
  | cons c cs ih =>
    intro i h
    rw [charIndicesFrom] at h
    rcases List.mem_cons.mp h with h | h
    · subst h; exact List.mem_cons_self _ _
    · exact List.mem_cons_of_mem _ (ih _ h)

lemma charIndicesFrom_find?_eq (valid : Char → Bool)
    (hsz : ∀ c, valid c = true → c.utf8Size = 1) :
    ∀ (l : RStr) (i : Nat),
      (charIndicesFrom i l).find? (fun p => !valid p.2) =
        (firstBad valid l).map (fun p => (i + p.1, p.2)) := by
  intro l
  induction l with
  | nil => intro i; rfl
  | cons c cs ih =>
    intro i
    rw [charIndicesFrom, firstBad]
    by_cases hc : valid c = true
    · rw [List.find?_cons_of_neg _ (by simp [hc]), hsz c hc, ih (i + 1), hc]
      simp only [if_true]
      cases hfb : firstBad valid cs with
      | none => simp
      | some pr =>
        rcases pr with ⟨a, b⟩
        simp only [Option.map_some']
        have : i + 1 + a = i + (a + 1) := by omega
        rw [this]
    · rw [List.find?_cons_of_pos _ (by simp [hc])]
      simp [hc]

lemma check_namespace_ok {s : RStr} (hne : s ≠ [])
    (hall : ∀ c ∈ s, NamespacedID.is_valid_namespace_char c = true) :
    NamespacedID.check_namespace s = .ok () := by
  unfold NamespacedID.check_namespace
  rw [if_neg (by simpa [List.isEmpty_iff] using hne)]
  rw [List.find?_eq_none.mpr]
  intro p hp
  simp [hall p.2 (mem_charIndicesFrom _ _ hp)]

lemma check_path_ok {s : RStr} (hne : s ≠ [])
    (hall : ∀ c ∈ s, NamespacedID.is_valid_path_char c = true) :
    NamespacedID.check_path s = .ok () := by
  unfold NamespacedID.check_path
  rw [if_neg (by simpa [List.isEmpty_iff] using hne)]
  rw [List.find?_eq_none.mpr]
  intro p hp
  simp [hall p.2 (mem_charIndicesFrom _ _ hp)]

lemma check_namespace_error_of_firstBad {s : RStr} {idx : Nat} {c : Char}
    (h : firstBad NamespacedID.is_valid_namespace_char s = some (idx, c)) :
    NamespacedID.check_namespace s = .error (.BadChar idx c) := by
  have hne : s ≠ [] := by intro he; subst he; simp [firstBad] at h
  unfold NamespacedID.check_namespace
  rw [if_neg (by simpa [List.isEmpty_iff] using hne)]
  rw [charIndicesFrom_find?_eq _ (fun _ hc => valid_namespace_char_utf8Size hc) s 0, h]
  simp

lemma check_path_error_of_firstBad {s : RStr} {idx : Nat} {c : Char}
    (h : firstBad NamespacedID.is_valid_path_char s = some (idx, c)) :
    NamespacedID.check_path s = .error (.BadChar idx c) := by
  have hne : s ≠ [] := by intro he; subst he; simp [firstBad] at h
  unfold NamespacedID.check_path
  rw [if_neg (by simpa [List.isEmpty_iff] using hne)]
  rw [charIndicesFrom_find?_eq _ (fun _ hc => valid_path_char_utf8Size hc) s 0, h]
  simp

lemma exists_charIndicesFrom_of_mem {c : Char} :
    ∀ (l : RStr) (j : Nat), c ∈ l → ∃ i, (i, c) ∈ charIndicesFrom j l := by
  intro l
  induction l with
  | nil => intro j h; cases h
  | cons d ds ih =>
    intro j h
    rcases List.mem_cons.mp h with h | h
    · exact ⟨j, by rw [charIndicesFrom, h]; exact List.mem_cons_self _ _⟩
    · rcases ih (j + d.utf8Size) h with ⟨i, hi⟩
      exact ⟨i, by rw [charIndicesFrom]; exact List.mem_cons_of_mem _ hi⟩

lemma check_namespace_all_valid {s : RStr}
    (h : NamespacedID.check_namespace s = .ok ()) :
    ∀ c ∈ s, NamespacedID.is_valid_namespace_char c = true := by
  intro c hc
  unfold NamespacedID.check_namespace at h
  by_cases he : s.isEmpty
  · rw [if_pos he] at h; cases h
  · rw [if_neg he] at h
    rcases exists_charIndicesFrom_of_mem s 0 hc with ⟨i, hi⟩
    cases hf : (charIndicesFrom 0 s).find?
        (fun p => !NamespacedID.is_valid_namespace_char p.2) with
    | none =>
      have := List.find?_eq_none.mp hf _ hi
      simpa using this
    | some p =>
      rcases p with ⟨a, b⟩
      rw [hf] at h
      simp at h

/-! `split_once` facts. -/

lemma split_once_eq_none {sep : Char} {s : RStr} (h : sep ∉ s) :
    split_once sep s = none := by
  induction s with
  | nil => rfl
  | cons c cs ih =>
    rw [split_once]
    rw [if_neg (by intro he; exact h (he ▸ List.mem_cons_self c cs))]
    rw [ih (fun hm => h (List.mem_cons_of_mem _ hm))]
    rfl

lemma split_once_append {sep : Char} {post : RStr} :
    ∀ {pre : RStr}, sep ∉ pre →
      split_once sep (pre ++ sep :: post) = some (pre, post) := by
  intro pre
  induction pre with
  | nil => intro _; simp [split_once]
  | cons c cs ih =>
    intro h
    rw [List.cons_append, split_once]
    rw [if_neg (by intro he; exact h (he ▸ List.mem_cons_self c cs))]
    rw [ih (fun hm => h (List.mem_cons_of_mem _ hm))]
    rfl

/-! Interner facts: interning is idempotent, keys resolve to the interned
string, and neither existing keys nor their resolutions move when more
strings are interned. -/

lemma find_spur_get? {s : RStr} :
    ∀ {st : Interner} {i : Nat}, Interner.find_spur s st = some i →
      st.get? i = some s := by
  intro st
  induction st with
  | nil => intro i h; cases h
  | cons t ts ih =>
    intro i h
    rw [Interner.find_spur] at h
    by_cases he : t = s
    · rw [if_pos he] at h
      cases h
      simp [he]
    · rw [if_neg he] at h
      cases hf : Interner.find_spur s ts with
      | none => rw [hf] at h; cases h
      | some j =>
        rw [hf] at h
        cases h
        simpa using ih hf

lemma find_spur_append_right {s : RStr} {l : Interner} :
    ∀ {st : Interner} {i : Nat}, Interner.find_spur s st = some i →
      Interner.find_spur s (st ++ l) = some i := by
  intro st
  induction st with
  | nil => intro i h; cases h
  | cons t ts ih =>
    intro i h
    rw [Interner.find_spur] at h
    rw [List.cons_append, Interner.find_spur]
    by_cases he : t = s
    · rw [if_pos he] at h ⊢; exact h
    · rw [if_neg he] at h ⊢
      cases hf : Interner.find_spur s ts with
      | none => rw [hf] at h; cases h
      | some j => rw [ih hf]; rw [hf] at h; exact h

lemma find_spur_append_self {s : RStr} :
    ∀ {st : Interner}, Interner.find_spur s st = none →
      Interner.find_spur s (st ++ [s]) = some st.length := by
  intro st
  induction st with
  | nil => intro _; simp [Interner.find_spur]
  | cons t ts ih =>
    intro h
    rw [Interner.find_spur] at h
    rw [List.cons_append, Interner.find_spur]
    by_cases he : t = s
    · rw [if_pos he] at h
      cases h
    · rw [if_neg he] at h ⊢
      cases hf : Interner.find_spur s ts with
      | none => rw [ih hf]; simp
      | some j => rw [hf] at h; cases h

lemma get_or_intern_find_spur {st st' : Interner} {s : RStr} {i : Nat}
    (h : Interner.get_or_intern st s = (st', i)) :
    Interner.find_spur s st' = some i := by
  unfold Interner.get_or_intern at h
  cases hf : Interner.find_spur s st with
  | some j =>
    rw [hf] at h
    cases h
    exact hf
  | none =>
    rw [hf] at h
    cases h
    exact find_spur_append_self hf

lemma get_or_intern_of_find_spur {st : Interner} {s : RStr} {i : Nat}
    (h : Interner.find_spur s st = some i) :
    Interner.get_or_intern st s = (st, i) := by
  unfold Interner.get_or_intern
  rw [h]

lemma get_or_intern_idem {st st' : Interner} {s : RStr} {i : Nat}
    (h : Interner.get_or_intern st s = (st', i)) :
    Interner.get_or_intern st' s = (st', i) :=
  get_or_intern_of_find_spur (get_or_intern_find_spur h)

lemma get_or_intern_get? {st st' : Interner} {s : RStr} {i : Nat}
    (h : Interner.get_or_intern st s = (st', i)) :
    st'.get? i = some s :=
  find_spur_get? (get_or_intern_find_spur h)

lemma get_or_intern_preserves_get? {st st' : Interner} {s t : RStr} {i j : Nat}
    (h : Interner.get_or_intern st s = (st', i))
    (hj : st.get? j = some t) : st'.get? j = some t := by
  unfold Interner.get_or_intern at h
  cases hf : Interner.find_spur s st with
  | some k =>
    rw [hf] at h
    cases h
    exact hj
  | none =>
    rw [hf] at h
    cases h
    have hlt : j < st.length := by
      rcases List.get?_eq_some.mp hj with ⟨hlt, _⟩
      exact hlt
    rw [List.get?_append hlt]
    exact hj

lemma get_or_intern_preserves_find_spur {st st' : Interner} {s t : RStr} {i j : Nat}
    (h : Interner.get_or_intern st s = (st', i))
    (hj : Interner.find_spur t st = some j) : Interner.find_spur t st' = some j := by
  unfold Interner.get_or_intern at h
  cases hf : Interner.find_spur s st with
  | some k =>
    rw [hf] at h
    cases h
    exact hj
  | none =>
    rw [hf] at h
    cases h
    exact find_spur_append_right hj

/-! List and registry helper lemmas. -/

lemma get?_some_lt {α : Type} {l : List α} {i : Nat} {x : α}
    (h : l.get? i = some x) : i < l.length := by
  rcases List.get?_eq_some.mp h with ⟨hlt, _⟩
  exact hlt

lemma get?_set_self {α : Type} (a : α) :
    ∀ (l : List α) (i : Nat), i < l.length → (l.set i a).get? i = some a := by
  intro l
  induction l with
  | nil => intro i h; cases h
  | cons x xs ih =>
    intro i h
    cases i with
    | zero => rfl
    | succ j => exact ih j (Nat.lt_of_succ_lt_succ h)

lemma register_ok_elim {T : Type} {r0 r1 : Registry T} {v : T}
    {nsid : NamespacedID} {h : RegistryHandle}
    (hreg : Registry.register r0 v nsid = (r1, .ok h)) :
    mapContainsKey r0.nsid_map nsid = false ∧
    h = ⟨r0.arena.length, nsid⟩ ∧
    r1 = { r0 with arena := r0.arena ++ [(v, nsid)], nsid_map := mapInsert r0.nsid_map nsid r0.arena.length } := by
  unfold Registry.register at hreg
  by_cases hk : mapContainsKey r0.nsid_map nsid
  · rw [if_pos hk] at hreg
    exact absurd (congrArg Prod.snd hreg) (by simp)
  · rw [if_neg hk] at hreg
    have h1 := congrArg Prod.fst hreg
    have h2 := congrArg Prod.snd hreg
    simp only at h1 h2
    injection h2 with h2
    exact ⟨by simpa using hk, h2.symm, h1.symm⟩

lemma register_arena_get? {T : Type} {r0 r1 : Registry T} {v : T}
    {nsid : NamespacedID} {h : RegistryHandle}
    (hreg : Registry.register r0 v nsid = (r1, .ok h)) :
    r1.arena.get? h.id = some (v, nsid) := by
  obtain ⟨_, hh, hr⟩ := register_ok_elim hreg
  rw [hr, hh]
  exact List.get?_concat_length r0.arena (v, nsid)

lemma applyOp_preserves_arena_get? {T : Type} (r : Registry T) (op : RegOp T)
    {i : Nat} {x : T × NamespacedID}
    (hx : r.arena.get? i = some x) : (applyOp r op).arena.get? i = some x := by
  cases op with
  | register v nsid =>
    show ((Registry.register r v nsid).1).arena.get? i = some x
    unfold Registry.register
    by_cases hk : mapContainsKey r.nsid_map nsid
    · rw [if_pos hk]; exact hx
    · rw [if_neg hk]
      dsimp only
      rw [List.get?_append (get?_some_lt hx)]
      exact hx
  | register_category nsid es =>
    show ((Registry.register_category r nsid es).1).arena.get? i = some x
    unfold Registry.register_category
    by_cases hk : mapContainsKey r.category_nsid_map nsid
    · rw [if_pos hk]; exact hx
    · rw [if_neg hk]; exact hx
  | insert_into_category c e =>
    show (Registry.insert_into_category r c e).arena.get? i = some x
    unfold Registry.insert_into_category
    cases hm : r.category_arena.get? c.id with
    | none => exact hx
    | some pr => rcases pr with ⟨s, n⟩; exact hx
  | insert_many_into_category c es =>
    show (Registry.insert_many_into_category r c es).arena.get? i = some x
    unfold Registry.insert_many_into_category
    cases hm : r.category_arena.get? c.id with
    | none => exact hx
    | some pr => rcases pr with ⟨s, n⟩; exact hx
  | remove_from_category c e =>
    show ((Registry.remove_from_category r c e).1).arena.get? i = some x
    unfold Registry.remove_from_category
    cases hm : r.category_arena.get? c.id with
    | none => exact hx
    | some pr => rcases pr with ⟨s, n⟩; exact hx

lemma applyOps_preserves_arena_get? {T : Type} {i : Nat} {x : T × NamespacedID} :
    ∀ (ops : List (RegOp T)) (r : Registry T), r.arena.get? i = some x →
      (applyOps r ops).arena.get? i = some x := by
  intro ops
  induction ops with
  | nil => intro r hx; exact hx
  | cons op ops ih =>
    intro r hx
    exact ih _ (applyOp_preserves_arena_get? r op hx)

lemma insert_into_category_eq {T : Type} {r : Registry T} {c : CategoryHandle}
    {s : Finset Nat} {n : NamespacedID} (e : RegistryHandle)
    (hc : r.category_arena.get? c.id = some (s, n)) :
    Registry.insert_into_category r c e =
      { r with category_arena := r.category_arena.set c.id (insert e.id s, n) } := by
  unfold Registry.insert_into_category
  simp only [hc]

lemma remove_from_category_eq {T : Type} {r : Registry T} {c : CategoryHandle}
    {s : Finset Nat} {n : NamespacedID} (e : RegistryHandle)
    (hc : r.category_arena.get? c.id = some (s, n)) :
    Registry.remove_from_category r c e =
      ({ r with category_arena := r.category_arena.set c.id (s.erase e.id, n) },
       decide (e.id ∈ s)) := by
  unfold Registry.remove_from_category
  simp only [hc]

/-! The claims about `NamespacedID`. -/

/-- C1: the spec says `new_from_parts(namespace, path)` validates the
namespace argument against the namespace rules and the path argument
against the path rules, succeeding exactly when both pass.  The source
instead runs `check_path(namespace)` (nsid.rs line 82) — the namespace
argument again — so the path argument is never validated: the call with
valid namespace `"ab"` and invalid path `"c!d"` succeeds even though
`check_path` rejects `'!'` in `"c!d"`. -/
theorem new_from_parts_skips_path_validation :
    NamespacedID.new_from_parts [] ("ab".data) ("c!d".data) =
      .ok (["ab".data, "c!d".data], ⟨0, 1⟩) ∧
    NamespacedID.check_path ("c!d".data) = .error (.BadChar 1 '!') := by
  constructor
  · rfl
  · rfl

/-- C2 counterexample: parsing `"ab:c!d"` does not report the bad path
character at index 5; it reports index 4 (`'!'` is one character into
`"c!d"` and four characters into the full string). -/
theorem from_str_ab_c_bang_d_not_index_five :
    NamespacedID.from_str [] ("ab:c!d".data) =
      .error (.InvalidPath (.BadChar 4 '!')) ∧
    ¬ NamespacedID.from_str [] ("ab:c!d".data) =
      .error (.InvalidPath (.BadChar 5 '!')) := by
  constructor
  · rfl
  · decide

/-- C2 (amended): when the namespace segment passes validation and the
path substring's first invalid character (counting by character) sits at
index `idx`, `from_str` fails with an invalid-path error at index
`namespace character length + 1 + idx` — the character position in the
full original string; in particular parsing `"ab:c!d"` reports the bad
path character at index 4. -/
theorem from_str_path_error_offset (st : Interner) (nsSeg rest : RStr)
    (idx : Nat) (c : Char)
    (hns : NamespacedID.check_namespace nsSeg = .ok ())
    (hbad : firstBad NamespacedID.is_valid_path_char rest = some (idx, c)) :
    NamespacedID.from_str st (nsSeg ++ ':' :: rest) =
      .error (.InvalidPath (.BadChar (nsSeg.length + 1 + idx) c)) ∧
    NamespacedID.from_str [] ("ab:c!d".data) =
      .error (.InvalidPath (.BadChar 4 '!')) := by
  constructor
  · have hnc : ':' ∉ nsSeg := by
      intro hm
      have hv := check_namespace_all_valid hns ':' hm
      rw [colon_not_valid_namespace_char] at hv
      cases hv
    unfold NamespacedID.from_str
    rw [split_once_append hnc]
    simp only [hns, check_path_error_of_firstBad hbad]
  · rfl

theorem from_str_path_error_offset_witness :
    NamespacedID.check_namespace ("ab".data) = .ok () ∧
    firstBad NamespacedID.is_valid_path_char ("c!d".data) = some (1, '!') ∧
    (NamespacedID.from_str [] (("ab".data) ++ ':' :: ("c!d".data)) =
      .error (.InvalidPath (.BadChar (("ab".data).length + 1 + 1) '!')) ∧
     NamespacedID.from_str [] ("ab:c!d".data) =
      .error (.InvalidPath (.BadChar 4 '!'))) :=
  ⟨by decide, by decide,
   from_str_path_error_offset [] ("ab".data) ("c!d".data) 1 '!'
     (by decide) (by decide)⟩

/-- C3: a string whose first character outside the namespace alphabet
sits at character index `idx` (counted by character, not byte — multi-
byte characters may precede it) is rejected as a namespace with
`BadChar idx`: by `check_namespace` itself, by `new_from_parts`, and by
`from_str` when the string is the segment left of the first colon. -/
theorem namespace_bad_char_reported_by_char_index (st : Interner)
    (s rest p : RStr) (idx : Nat) (c : Char)
    (hbad : firstBad NamespacedID.is_valid_namespace_char s = some (idx, c))
    (hnc : ':' ∉ s) :
    NamespacedID.check_namespace s = .error (.BadChar idx c) ∧
    NamespacedID.new_from_parts st s p =
      .error (.InvalidNamespace (.BadChar idx c)) ∧
    NamespacedID.from_str st (s ++ ':' :: rest) =
      .error (.InvalidNamespace (.BadChar idx c)) := by
  have hchk := check_namespace_error_of_firstBad hbad
  refine ⟨hchk, ?_, ?_⟩
  · unfold NamespacedID.new_from_parts
    rw [hchk]
  · unfold NamespacedID.from_str
    rw [split_once_append hnc]
    simp only [hchk]

theorem namespace_bad_char_reported_by_char_index_witness :
    firstBad NamespacedID.is_valid_namespace_char ['a', 'é', 'z'] =
      some (1, 'é') ∧
    ':' ∉ ['a', 'é', 'z'] ∧
    (NamespacedID.check_namespace ['a', 'é', 'z'] = .error (.BadChar 1 'é') ∧
     NamespacedID.new_from_parts [] ['a', 'é', 'z'] ("p".data) =
       .error (.InvalidNamespace (.BadChar 1 'é')) ∧
     NamespacedID.from_str [] (['a', 'é', 'z'] ++ ':' :: ("p".data)) =
       .error (.InvalidNamespace (.BadChar 1 'é'))) :=
  ⟨by decide, by decide,
   namespace_bad_char_reported_by_char_index [] ['a', 'é', 'z'] ("p".data)
     ("p".data) 1 'é' (by decide) (by decide)⟩

/-- C5: parsing splits on the first colon only: a string containing no
`':'` fails with `NoSeparator`, and for a string of the shape
`pre ++ ':' :: post` with no colon in `pre` — the general shape of a
string containing a colon — the namespace segment is `pre` and the path
segment is all of `post`, any further colons included. -/
theorem from_str_splits_on_first_colon (st : Interner) (s pre post : RStr)
    (h1 : ':' ∉ s) (h2 : ':' ∉ pre) :
    NamespacedID.from_str st s = .error .NoSeparator ∧
    split_once ':' (pre ++ ':' :: post) = some (pre, post) := by
  constructor
  · unfold NamespacedID.from_str
    rw [split_once_eq_none h1]
  · exact split_once_append h2

/-- C4: for any non-empty namespace over the namespace alphabet and
non-empty path over the path alphabet, `new_from_parts` succeeds,
formatting the resulting identifier yields exactly `namespace:path`, and
parsing that string back succeeds with an identifier equal to the
constructed one (and the interner unchanged). -/
theorem construct_format_parse_roundtrip (st : Interner) (nsSeg p : RStr)
    (hns0 : nsSeg ≠ []) (hp0 : p ≠ [])
    (hns : ∀ c ∈ nsSeg, NamespacedID.is_valid_namespace_char c = true)
    (hp : ∀ c ∈ p, NamespacedID.is_valid_path_char c = true) :
    ∃ st2 id, NamespacedID.new_from_parts st nsSeg p = .ok (st2, id) ∧
      NamespacedID.display st2 id = nsSeg ++ ':' :: p ∧
      NamespacedID.from_str st2 (NamespacedID.display st2 id) = .ok (st2, id) := by
  obtain ⟨st1, n, h1⟩ : ∃ st1 n, Interner.get_or_intern st nsSeg = (st1, n) :=
    ⟨_, _, rfl⟩
  obtain ⟨st2, pp, h2⟩ : ∃ st2 pp, Interner.get_or_intern st1 p = (st2, pp) :=
    ⟨_, _, rfl⟩
  have hg1 : st2.get? n = some nsSeg :=
    get_or_intern_preserves_get? h2 (get_or_intern_get? h1)
  have hg2 : st2.get? pp = some p := get_or_intern_get? h2
  have hdisp : NamespacedID.display st2 ⟨n, pp⟩ = nsSeg ++ ':' :: p := by
    unfold NamespacedID.display Interner.resolve
    rw [hg1, hg2]
    rfl
  have hcolon : ':' ∉ nsSeg := by
    intro hm
    have hv := hns ':' hm
    rw [colon_not_valid_namespace_char] at hv
    cases hv
  have hchkns := check_namespace_ok hns0 hns
  refine ⟨st2, ⟨n, pp⟩, ?_, hdisp, ?_⟩
  · unfold NamespacedID.new_from_parts
    rw [hchkns,
      check_path_ok hns0 (fun c hc => valid_namespace_char_valid_path_char (hns c hc))]
    simp only [h1, h2]
  · rw [hdisp]
    have hi1 : Interner.get_or_intern st2 nsSeg = (st2, n) :=
      get_or_intern_of_find_spur
        (get_or_intern_preserves_find_spur h2 (get_or_intern_find_spur h1))
    have hi2 : Interner.get_or_intern st2 p = (st2, pp) := get_or_intern_idem h2
    unfold NamespacedID.from_str
    rw [split_once_append hcolon]
    simp only [hchkns, check_path_ok hp0 hp, hi1, hi2]

theorem construct_format_parse_roundtrip_witness :
    ("core".data ≠ ([] : List Char)) ∧ ("answer".data ≠ ([] : List Char)) ∧
    (∀ c ∈ "core".data, NamespacedID.is_valid_namespace_char c = true) ∧
    (∀ c ∈ "answer".data, NamespacedID.is_valid_path_char c = true) ∧
    (∃ st2 id, NamespacedID.new_from_parts [] ("core".data) ("answer".data) =
        .ok (st2, id) ∧
      NamespacedID.display st2 id = ("core".data) ++ ':' :: ("answer".data) ∧
      NamespacedID.from_str st2 (NamespacedID.display st2 id) = .ok (st2, id)) :=
  ⟨by decide, by decide, by decide, by decide,
   construct_format_parse_roundtrip [] ("core".data) ("answer".data)
     (by decide) (by decide) (by decide) (by decide)⟩

theorem from_str_splits_on_first_colon_witness :
    ':' ∉ ("abc".data) ∧ ':' ∉ ("ab".data) ∧
    (NamespacedID.from_str [] ("abc".data) = .error .NoSeparator ∧
     split_once ':' (("ab".data) ++ ':' :: ("c:d".data)) =
       some ("ab".data, "c:d".data)) :=
  ⟨by decide, by decide,
   from_str_splits_on_first_colon [] ("abc".data) ("ab".data) ("c:d".data)
     (by decide) (by decide)⟩

/-! The claims about `Registry`. -/

/-- C6: registering under an identifier already present in the
identifier index fails with `ErrAlreadyRegistered` and returns the
registry completely unchanged, so every earlier handle still looks up
the value it was registered with. -/
theorem register_duplicate_fails (T : Type) (r : Registry T) (v : T)
    (nsid : NamespacedID) (hk : mapContainsKey r.nsid_map nsid = true) :
    Registry.register r v nsid = (r, .error .mk) ∧
    ∀ hh, Registry.lookup (Registry.register r v nsid).1 hh = Registry.lookup r hh := by
  have he : Registry.register r v nsid = (r, .error .mk) := by
    unfold Registry.register
    rw [if_pos hk]
  exact ⟨he, fun hh => by rw [he]⟩

theorem register_duplicate_fails_witness :
    mapContainsKey ([((⟨0, 0⟩ : NamespacedID), 0)]) ⟨0, 0⟩ = true ∧
    (Registry.register (⟨[(42, ⟨0, 0⟩)], [(⟨0, 0⟩, 0)], [], []⟩ : Registry Nat) 7 ⟨0, 0⟩ =
       ((⟨[(42, ⟨0, 0⟩)], [(⟨0, 0⟩, 0)], [], []⟩ : Registry Nat), .error .mk) ∧
     ∀ hh, Registry.lookup
        (Registry.register (⟨[(42, ⟨0, 0⟩)], [(⟨0, 0⟩, 0)], [], []⟩ : Registry Nat) 7 ⟨0, 0⟩).1 hh =
       Registry.lookup (⟨[(42, ⟨0, 0⟩)], [(⟨0, 0⟩, 0)], [], []⟩ : Registry Nat) hh) :=
  ⟨by decide,
   register_duplicate_fails Nat ⟨[(42, ⟨0, 0⟩)], [(⟨0, 0⟩, 0)], [], []⟩ 7 ⟨0, 0⟩ (by decide)⟩

/-- C7: a handle returned by a successful `register` keeps resolving —
after any finite sequence of further operations, `lookup` returns the
registered value and `get_nsid` the identifier it was registered under;
neither is ever `none`. -/
theorem handle_totality (T : Type) (r0 r1 : Registry T) (v : T)
    (nsid : NamespacedID) (h : RegistryHandle)
    (hreg : Registry.register r0 v nsid = (r1, .ok h))
    (ops : List (RegOp T)) :
    Registry.lookup (applyOps r1 ops) h = some v ∧
    Registry.get_nsid (applyOps r1 ops) h = some nsid := by
  have hget := applyOps_preserves_arena_get? ops r1 (register_arena_get? hreg)
  constructor
  · unfold Registry.lookup
    rw [hget]
    rfl
  · unfold Registry.get_nsid
    rw [hget]
    rfl

theorem handle_totality_witness :
    Registry.register (Registry.new Nat) 42 ⟨0, 0⟩ =
      ((⟨[(42, ⟨0, 0⟩)], [(⟨0, 0⟩, 0)], [], []⟩ : Registry Nat), .ok ⟨0, ⟨0, 0⟩⟩) ∧
    (Registry.lookup
        (applyOps (⟨[(42, ⟨0, 0⟩)], [(⟨0, 0⟩, 0)], [], []⟩ : Registry Nat)
          [RegOp.register 44 ⟨1, 1⟩, RegOp.register_category ⟨2, 2⟩ [⟨0, ⟨0, 0⟩⟩],
           RegOp.insert_into_category ⟨0, ⟨2, 2⟩⟩ ⟨1, ⟨1, 1⟩⟩,
           RegOp.remove_from_category ⟨0, ⟨2, 2⟩⟩ ⟨0, ⟨0, 0⟩⟩]) ⟨0, ⟨0, 0⟩⟩ = some 42 ∧
     Registry.get_nsid
        (applyOps (⟨[(42, ⟨0, 0⟩)], [(⟨0, 0⟩, 0)], [], []⟩ : Registry Nat)
          [RegOp.register 44 ⟨1, 1⟩, RegOp.register_category ⟨2, 2⟩ [⟨0, ⟨0, 0⟩⟩],
           RegOp.insert_into_category ⟨0, ⟨2, 2⟩⟩ ⟨1, ⟨1, 1⟩⟩,
           RegOp.remove_from_category ⟨0, ⟨2, 2⟩⟩ ⟨0, ⟨0, 0⟩⟩]) ⟨0, ⟨0, 0⟩⟩ = some ⟨0, 0⟩) :=
  ⟨by decide,
   handle_totality Nat (Registry.new Nat) ⟨[(42, ⟨0, 0⟩)], [(⟨0, 0⟩, 0)], [], []⟩
     42 ⟨0, 0⟩ ⟨0, ⟨0, 0⟩⟩ (by decide)
     [RegOp.register 44 ⟨1, 1⟩, RegOp.register_category ⟨2, 2⟩ [⟨0, ⟨0, 0⟩⟩],
      RegOp.insert_into_category ⟨0, ⟨2, 2⟩⟩ ⟨1, ⟨1, 1⟩⟩,
      RegOp.remove_from_category ⟨0, ⟨2, 2⟩⟩ ⟨0, ⟨0, 0⟩⟩]⟩

/-- C8: category membership is a set — inserting a handle twice equals
inserting it once, the handle is a member afterwards, the member's
multiplicity in the category's underlying multiset is exactly 1, and a
duplicated handle in the list given to `register_category` collapses. -/
theorem category_set_semantics (T : Type) (r : Registry T) (c : CategoryHandle)
    (e : RegistryHandle) (s : Finset Nat) (n : NamespacedID)
    (hc : r.category_arena.get? c.id = some (s, n)) :
    Registry.insert_into_category (Registry.insert_into_category r c e) c e =
      Registry.insert_into_category r c e ∧
    Registry.is_in_category (Registry.insert_into_category r c e) e c = true ∧
    ((Registry.insert_into_category r c e).category_arena.get? c.id).elim 0
      (fun pr => pr.1.val.count e.id) = 1 ∧
    ∀ nsid' es, Registry.register_category r nsid' (e :: e :: es) =
      Registry.register_category r nsid' (e :: es) := by
  have hlt : c.id < r.category_arena.length := get?_some_lt hc
  have hins := insert_into_category_eq e hc
  have hget1 : (Registry.insert_into_category r c e).category_arena.get? c.id =
      some (insert e.id s, n) := by
    rw [hins]
    exact get?_set_self _ _ _ (by simpa using hlt)
  refine ⟨?_, ?_, ?_, ?_⟩
  · rw [insert_into_category_eq e hget1, hins]
    simp only [List.set_set, Finset.insert_idem]
  · unfold Registry.is_in_category
    simp only [hget1]
    simp
  · rw [hget1]
    simp only [Option.elim]
    exact Multiset.count_eq_one_of_mem (insert e.id s).nodup
      (Finset.mem_def.mp (Finset.mem_insert_self _ _))
  · intro nsid' es
    unfold Registry.register_category
    by_cases hk : mapContainsKey r.category_nsid_map nsid'
    · rw [if_pos hk, if_pos hk]
    · rw [if_neg hk, if_neg hk]
      simp [List.toFinset_cons, Finset.insert_idem]

theorem category_set_semantics_witness :
    (⟨[(42, ⟨0, 0⟩)], [(⟨0, 0⟩, 0)], [({0}, ⟨2, 2⟩)], [(⟨2, 2⟩, 0)]⟩ :
        Registry Nat).category_arena.get? 0 = some ({0}, ⟨2, 2⟩) ∧
    (Registry.insert_into_category
        (Registry.insert_into_category
          (⟨[(42, ⟨0, 0⟩)], [(⟨0, 0⟩, 0)], [({0}, ⟨2, 2⟩)], [(⟨2, 2⟩, 0)]⟩ : Registry Nat)
          ⟨0, ⟨2, 2⟩⟩ ⟨1, ⟨1, 1⟩⟩) ⟨0, ⟨2, 2⟩⟩ ⟨1, ⟨1, 1⟩⟩ =
      Registry.insert_into_category
        (⟨[(42, ⟨0, 0⟩)], [(⟨0, 0⟩, 0)], [({0}, ⟨2, 2⟩)], [(⟨2, 2⟩, 0)]⟩ : Registry Nat)
        ⟨0, ⟨2, 2⟩⟩ ⟨1, ⟨1, 1⟩⟩ ∧
     Registry.is_in_category
        (Registry.insert_into_category
          (⟨[(42, ⟨0, 0⟩)], [(⟨0, 0⟩, 0)], [({0}, ⟨2, 2⟩)], [(⟨2, 2⟩, 0)]⟩ : Registry Nat)
          ⟨0, ⟨2, 2⟩⟩ ⟨1, ⟨1, 1⟩⟩) ⟨1, ⟨1, 1⟩⟩ ⟨0, ⟨2, 2⟩⟩ = true ∧
     ((Registry.insert_into_category
          (⟨[(42, ⟨0, 0⟩)], [(⟨0, 0⟩, 0)], [({0}, ⟨2, 2⟩)], [(⟨2, 2⟩, 0)]⟩ : Registry Nat)
          ⟨0, ⟨2, 2⟩⟩ ⟨1, ⟨1, 1⟩⟩).category_arena.get?
        (⟨0, ⟨2, 2⟩⟩ : CategoryHandle).id).elim 0
        (fun pr => pr.1.val.count (⟨1, ⟨1, 1⟩⟩ : RegistryHandle).id) = 1 ∧
     ∀ nsid' es, Registry.register_category
        (⟨[(42, ⟨0, 0⟩)], [(⟨0, 0⟩, 0)], [({0}, ⟨2, 2⟩)], [(⟨2, 2⟩, 0)]⟩ : Registry Nat)
        nsid' (⟨1, ⟨1, 1⟩⟩ :: ⟨1, ⟨1, 1⟩⟩ :: es) =
      Registry.register_category
        (⟨[(42, ⟨0, 0⟩)], [(⟨0, 0⟩, 0)], [({0}, ⟨2, 2⟩)], [(⟨2, 2⟩, 0)]⟩ : Registry Nat)
        nsid' (⟨1, ⟨1, 1⟩⟩ :: es)) :=
  ⟨by decide,
   category_set_semantics Nat
     ⟨[(42, ⟨0, 0⟩)], [(⟨0, 0⟩, 0)], [({0}, ⟨2, 2⟩)], [(⟨2, 2⟩, 0)]⟩
     ⟨0, ⟨2, 2⟩⟩ ⟨1, ⟨1, 1⟩⟩ {0} ⟨2, 2⟩ (by decide)⟩

/-- C9: `remove_from_category` reports exactly whether the handle was a
member immediately before the call — so a second removal in a row
reports `false` — and it never touches the value arena: every lookup is
unchanged afterwards. -/
theorem remove_from_category_spec (T : Type) (r : Registry T)
    (c : CategoryHandle) (e : RegistryHandle) (s : Finset Nat) (n : NamespacedID)
    (hc : r.category_arena.get? c.id = some (s, n)) :
    (Registry.remove_from_category r c e).2 = Registry.is_in_category r e c ∧
    (Registry.remove_from_category
        (Registry.remove_from_category r c e).1 c e).2 = false ∧
    ∀ hh, Registry.lookup (Registry.remove_from_category r c e).1 hh =
      Registry.lookup r hh := by
  have hlt : c.id < r.category_arena.length := get?_some_lt hc
  have hrem := remove_from_category_eq e hc
  refine ⟨?_, ?_, ?_⟩
  · rw [hrem]
    unfold Registry.is_in_category
    simp only [hc]
  · rw [hrem]
    have hget2 : (({ r with category_arena := r.category_arena.set c.id (s.erase e.id, n) }, decide (e.id ∈ s)) : Registry T × Bool).1.category_arena.get? c.id = some (s.erase e.id, n) :=
      get?_set_self _ _ _ (by simpa using hlt)
    rw [remove_from_category_eq e hget2]
    simp [Finset.not_mem_erase]
  · intro hh
    rw [hrem]
    rfl

theorem remove_from_category_spec_witness :
    (⟨[(42, ⟨0, 0⟩)], [(⟨0, 0⟩, 0)], [({0}, ⟨2, 2⟩)], [(⟨2, 2⟩, 0)]⟩ :
        Registry Nat).category_arena.get? 0 = some ({0}, ⟨2, 2⟩) ∧
    ((Registry.remove_from_category
        (⟨[(42, ⟨0, 0⟩)], [(⟨0, 0⟩, 0)], [({0}, ⟨2, 2⟩)], [(⟨2, 2⟩, 0)]⟩ : Registry Nat)
        ⟨0, ⟨2, 2⟩⟩ ⟨0, ⟨0, 0⟩⟩).2 =
      Registry.is_in_category
        (⟨[(42, ⟨0, 0⟩)], [(⟨0, 0⟩, 0)], [({0}, ⟨2, 2⟩)], [(⟨2, 2⟩, 0)]⟩ : Registry Nat)
        ⟨0, ⟨0, 0⟩⟩ ⟨0, ⟨2, 2⟩⟩ ∧
     (Registry.remove_from_category
        (Registry.remove_from_category
          (⟨[(42, ⟨0, 0⟩)], [(⟨0, 0⟩, 0)], [({0}, ⟨2, 2⟩)], [(⟨2, 2⟩, 0)]⟩ : Registry Nat)
          ⟨0, ⟨2, 2⟩⟩ ⟨0, ⟨0, 0⟩⟩).1 ⟨0, ⟨2, 2⟩⟩ ⟨0, ⟨0, 0⟩⟩).2 = false ∧
     ∀ hh, Registry.lookup
        (Registry.remove_from_category
          (⟨[(42, ⟨0, 0⟩)], [(⟨0, 0⟩, 0)], [({0}, ⟨2, 2⟩)], [(⟨2, 2⟩, 0)]⟩ : Registry Nat)
          ⟨0, ⟨2, 2⟩⟩ ⟨0, ⟨0, 0⟩⟩).1 hh =
       Registry.lookup
        (⟨[(42, ⟨0, 0⟩)], [(⟨0, 0⟩, 0)], [({0}, ⟨2, 2⟩)], [(⟨2, 2⟩, 0)]⟩ : Registry Nat) hh) :=
  ⟨by decide,
   remove_from_category_spec Nat
     ⟨[(42, ⟨0, 0⟩)], [(⟨0, 0⟩, 0)], [({0}, ⟨2, 2⟩)], [(⟨2, 2⟩, 0)]⟩
     ⟨0, ⟨2, 2⟩⟩ ⟨0, ⟨0, 0⟩⟩ {0} ⟨2, 2⟩ (by decide)⟩

/-- C10: after a successful `register(value, id)` returning handle `h`,
`validate_nsid(id)` returns a handle that is equal to `h` under the
source's id-only handle equality (`beq`, which ignores the cached
identifier by definition), and that handle looks up the same value. -/
theorem register_validate_nsid_roundtrip (T : Type) (r0 r1 : Registry T)
    (v : T) (nsid : NamespacedID) (h : RegistryHandle)
    (hreg : Registry.register r0 v nsid = (r1, .ok h)) :
    ∃ h', Registry.validate_nsid r1 nsid = some h' ∧
      RegistryHandle.beq h' h = true ∧
      (∀ a b : RegistryHandle, RegistryHandle.beq a b = (a.id == b.id)) ∧
      Registry.lookup r1 h' = Registry.lookup r1 h := by
  obtain ⟨hk, hh, hr⟩ := register_ok_elim hreg
  refine ⟨h, ?_, by simp [RegistryHandle.beq], fun a b => rfl, rfl⟩
  rw [hr, hh]
  unfold Registry.validate_nsid mapGet mapInsert
  simp

theorem register_validate_nsid_roundtrip_witness :
    Registry.register (Registry.new Nat) 42 ⟨0, 0⟩ =
      ((⟨[(42, ⟨0, 0⟩)], [(⟨0, 0⟩, 0)], [], []⟩ : Registry Nat), .ok ⟨0, ⟨0, 0⟩⟩) ∧
    (∃ h', Registry.validate_nsid
        (⟨[(42, ⟨0, 0⟩)], [(⟨0, 0⟩, 0)], [], []⟩ : Registry Nat) ⟨0, 0⟩ = some h' ∧
      RegistryHandle.beq h' ⟨0, ⟨0, 0⟩⟩ = true ∧
      (∀ a b : RegistryHandle, RegistryHandle.beq a b = (a.id == b.id)) ∧
      Registry.lookup (⟨[(42, ⟨0, 0⟩)], [(⟨0, 0⟩, 0)], [], []⟩ : Registry Nat) h' =
        Registry.lookup (⟨[(42, ⟨0, 0⟩)], [(⟨0, 0⟩, 0)], [], []⟩ : Registry Nat)
          ⟨0, ⟨0, 0⟩⟩) :=
  ⟨by decide,
   register_validate_nsid_roundtrip Nat (Registry.new Nat)
     ⟨[(42, ⟨0, 0⟩)], [(⟨0, 0⟩, 0)], [], []⟩ 42 ⟨0, 0⟩ ⟨0, ⟨0, 0⟩⟩ (by decide)⟩

end Regigigas
